import Mathlib

/-!
Shallow embedding of the Map_SDK assistant core: the intent parser with
generative-model fallback and tolerant JSON extraction
(assistant_agent_ollama.py), the dummy geodata backend with POI matching
(dummy_map_server.py), and the location-resolution logic shared with the
OpenStreetMap backend (openstreetmap_server.py).

Python strings are modelled as lists of characters, Python values as the
inductive type PyObj, raised exceptions as Except PyErr, and the
generative model as an opaque oracle of type Str → Str (the spec treats
it as "text in, text out"). Floating-point numbers are modelled as
rationals; the transcendental haversine computation is modelled over the
reals for the distance-function claims and abstracted as an explicit
distance-function parameter inside the POI/route pipelines.
-/

abbrev Str := List Char

/-- Whitespace characters recognised by the model of Python str.strip(). -/
def wsChar (c : Char) : Bool :=
  c = ' ' || c = '\t' || c = '\n' || c = '\r' || c = '\x0b' || c = '\x0c'

/-- Model of Python str.lower() (ASCII range, via Char.toLower). -/
def lowerStr (s : Str) : Str := s.map Char.toLower

/-- Model of Python str.strip() with no arguments. -/
def trimStr (s : Str) : Str :=
  ((s.dropWhile wsChar).reverse.dropWhile wsChar).reverse

/-- Model of Python str.rstrip("s"): drops every trailing letter s. -/
def rstripS (s : Str) : Str := (s.reverse.dropWhile (fun c => c = 's')).reverse

/-- Model of the Python substring test (pat in s). -/
def isSubStr (pat : Str) : Str → Bool
  | [] => pat.isEmpty
  | c :: rest => pat.isPrefixOf (c :: rest) || isSubStr pat rest

/-- Strips a literal from the front of a string, if present. -/
def dropLit (pat s : Str) : Option Str :=
  if pat.isPrefixOf s then some (s.drop pat.length) else Option.none

/-- Left-to-right non-overlapping removal of the literal "located", with
fuel bounding the recursion (the wrapper supplies enough fuel). -/
def removeLocatedGo : ℕ → Str → Str
  | 0, s => s
  | _ + 1, [] => []
  | f + 1, c :: rest =>
    if ("located".toList).isPrefixOf (c :: rest) then removeLocatedGo f (rest.drop 6)
    else c :: removeLocatedGo f rest

/-- Model of str.replace("located", "") as used by the "where is" rule. -/
def removeLocated (s : Str) : Str := removeLocatedGo s.length s

/-- Model of Python str.split(","). -/
def splitComma : Str → List Str
  | [] => [[]]
  | c :: rest =>
    if c = ',' then [] :: splitComma rest
    else
      match splitComma rest with
      | [] => [[c]]
      | h :: t => (c :: h) :: t

/-- All decompositions s = pre ++ sep ++ post, in order of increasing pre. -/
def allSplits (sep : Str) : Str → List (Str × Str)
  | [] => if sep.isEmpty then [([], [])] else []
  | c :: rest =>
    (if sep.isPrefixOf (c :: rest) then [(([] : Str), (c :: rest).drop sep.length)] else [])
      ++ (allSplits sep rest).map (fun pr => (c :: pr.1, pr.2))

/-- Greedy split used to model a regex of the form (.+)SEP(.+): the split at
the last occurrence of the separator with nonempty text on both sides. -/
def lastSplit2 (sep s : Str) : Option (Str × Str) :=
  ((allSplits sep s).filter (fun pr => !pr.1.isEmpty && !pr.2.isEmpty)).getLast?

/-- Drops everything up to and including the first occurrence of pat
(models where re.search finds a literal leading pattern). -/
def dropToAfter (pat : Str) : Str → Option Str
  | [] => if pat.isEmpty then some [] else Option.none
  | c :: rest =>
    if pat.isPrefixOf (c :: rest) then some ((c :: rest).drop pat.length)
    else dropToAfter pat rest

/-- Character class of a regex dot: anything but a newline. -/
def notNl (c : Char) : Bool := !(c == '\n')

/-- Character class [0-9.\-] of the reverse-geocode rule. -/
def numClass (c : Char) : Bool := c.isDigit || c == '.' || c == '-'

/-- Character class of the separator [ ,]+ of the reverse-geocode rule. -/
def sepClass (c : Char) : Bool := c == ' ' || c == ','

/-- Python values as manipulated by the assistant: None, bools, numbers
(floats modelled as rationals), strings, lists and dicts. -/
inductive PyObj where
  | none : PyObj
  | pybool (b : Bool) : PyObj
  | num (q : ℚ) : PyObj
  | str (s : Str) : PyObj
  | list (xs : List PyObj) : PyObj
  | dict (kvs : List (Str × PyObj)) : PyObj

mutual

/-- Structural equality test on PyObj, modelling the Python == used on
these values by the repository. -/
def pyBeq : PyObj → PyObj → Bool
  | .none, .none => true
  | .pybool a, .pybool b => a == b
  | .num a, .num b => a == b
  | .str a, .str b => a == b
  | .list xs, .list ys => pyBeqList xs ys
  | .dict a, .dict b => pyBeqKvs a b
  | _, _ => false

/-- Elementwise equality of PyObj lists. -/
def pyBeqList : List PyObj → List PyObj → Bool
  | [], [] => true
  | x :: xs, y :: ys => pyBeq x y && pyBeqList xs ys
  | _, _ => false

/-- Pairwise equality of dict entry lists. -/
def pyBeqKvs : List (Str × PyObj) → List (Str × PyObj) → Bool
  | [], [] => true
  | kv :: xs, kw :: ys => kv.1 == kw.1 && pyBeq kv.2 kw.2 && pyBeqKvs xs ys
  | _, _ => false

end

/-- Python exceptions raised by the modelled code paths. -/
inductive PyErr where
  | valueError (msg : Str)
  | typeError (msg : Str)
  | keyError (msg : Str)
  | attributeError (msg : Str)
deriving DecidableEq, Repr

/-- Model of str(e) on a caught exception: its message. -/
def errStr : PyErr → Str
  | .valueError m => m
  | .typeError m => m
  | .keyError m => m
  | .attributeError m => m

/-- Model of Python truthiness for the values above. -/
def pyTruthy : PyObj → Bool
  | .none => false
  | .pybool b => b
  | .num q => !(q == 0)
  | .str s => !s.isEmpty
  | .list xs => !xs.isEmpty
  | .dict kvs => !kvs.isEmpty

/-- Dict lookup with Python semantics (the latest binding of a key wins). -/
def dictFind (kvs : List (Str × PyObj)) (k : Str) : Option PyObj :=
  kvs.foldl (fun acc kv => if kv.1 = k then some kv.2 else acc) Option.none

/-- Model of dict.get(k) returning an Option (absent key gives none). -/
def pyGet (o : PyObj) (k : Str) : Option PyObj :=
  match o with
  | .dict kvs => dictFind kvs k
  | _ => Option.none

/-- Model of the Python membership test (k in o) for a string k: key lookup
on dicts, element equality on lists, substring test on strings, and a
TypeError on non-iterable values. -/
def pyContainsKey (k : Str) (o : PyObj) : Except PyErr Bool :=
  match o with
  | .dict kvs => .ok (kvs.any (fun kv => kv.1 = k))
  | .list xs => .ok (xs.any (fun x => pyBeq x (.str k)))
  | .str s => .ok (isSubStr k s)
  | _ => .error (.typeError ("argument is not iterable".toList))

/-- Model of the subscript o[k] for a string key. -/
def pyIndex (o : PyObj) (k : Str) : Except PyErr PyObj :=
  match o with
  | .dict kvs =>
    match dictFind kvs k with
    | some v => .ok v
    | none => .error (.keyError k)
  | _ => .error (.typeError ("object is not subscriptable by str".toList))

/-- Numeric value of a digit string. -/
def digitsVal (s : Str) : ℕ := s.foldl (fun a c => a * 10 + (c.toNat - 48)) 0

/-- Parses an unsigned decimal numeral: digits, optionally followed by a dot
and further digits, with at least one digit present overall. -/
def parseUnsignedDec (s : Str) : Option ℚ :=
  let intPart := s.takeWhile Char.isDigit
  let rest := s.drop intPart.length
  match rest with
  | [] => if intPart.isEmpty then Option.none else some ((digitsVal intPart : ℤ) : ℚ)
  | c :: frac =>
    if c = '.' then
      let fracDigits := frac.takeWhile Char.isDigit
      let rest2 := frac.drop fracDigits.length
      if rest2.isEmpty && !(intPart.isEmpty && fracDigits.isEmpty) then
        some (((digitsVal intPart : ℤ) : ℚ)
          + ((digitsVal fracDigits : ℤ) : ℚ) / ((10 : ℚ) ^ fracDigits.length))
      else Option.none
    else Option.none

/-- Model of the string branch of the Python float() builtin, restricted to
plain signed decimal numerals (the only forms the repository feeds it). -/
def pyFloatOfStr (s : Str) : Option ℚ :=
  match trimStr s with
  | [] => Option.none
  | c :: rest =>
    if c = '-' then (parseUnsignedDec rest).map Neg.neg
    else if c = '+' then parseUnsignedDec rest
    else parseUnsignedDec (c :: rest)

/-- Model of the float() builtin on PyObj values. -/
def pyFloat : PyObj → Except PyErr ℚ
  | .num q => .ok q
  | .pybool b => .ok (if b then 1 else 0)
  | .str s =>
    match pyFloatOfStr s with
    | some q => .ok q
    | none => .error (.valueError (("could not convert string to float: ").toList ++ s))
  | _ => .error (.typeError ("float argument must be a string or a real number".toList))

/-- Whitespace accepted between JSON tokens by json.loads. -/
def jsonWs (c : Char) : Bool := c = ' ' || c = '\t' || c = '\n' || c = '\r'

/-- Single-character JSON string escapes. -/
def jsonEscChar (c : Char) : Option Char :=
  if c = '"' then some '"'
  else if c = '\\' then some '\\'
  else if c = '/' then some '/'
  else if c = 'b' then some '\x08'
  else if c = 'f' then some '\x0c'
  else if c = 'n' then some '\n'
  else if c = 'r' then some '\r'
  else if c = 't' then some '\t'
  else Option.none

/-- Value of a hexadecimal digit. -/
def hexVal (c : Char) : Option ℕ :=
  if c.isDigit then some (c.toNat - 48)
  else if 'a' ≤ c && c ≤ 'f' then some (c.toNat - 87)
  else if 'A' ≤ c && c ≤ 'F' then some (c.toNat - 55)
  else Option.none

/-- Parses the body of a JSON string after the opening quote, returning the
decoded characters and the remainder after the closing quote. -/
def jStrBody : ℕ → Str → Option (Str × Str)
  | 0, _ => Option.none
  | _ + 1, [] => Option.none
  | f + 1, c :: rest =>
    if c = '"' then some ([], rest)
    else if c = '\\' then
      match rest with
      | [] => Option.none
      | e :: rest2 =>
        if e = 'u' then
          match rest2 with
          | h1 :: h2 :: h3 :: h4 :: rest3 => do
            let v1 ← hexVal h1
            let v2 ← hexVal h2
            let v3 ← hexVal h3
            let v4 ← hexVal h4
            let pr ← jStrBody f rest3
            some (Char.ofNat (((v1 * 16 + v2) * 16 + v3) * 16 + v4) :: pr.1, pr.2)
          | _ => Option.none
        else do
          let ec ← jsonEscChar e
          let pr ← jStrBody f rest2
          some (ec :: pr.1, pr.2)
    else if c.toNat < 32 then Option.none
    else do
      let pr ← jStrBody f rest
      some (c :: pr.1, pr.2)

/-- Parses a JSON number (sign, integer part without spurious leading zeros,
optional fraction and exponent) at the head of the input. -/
def jNum (s : Str) : Option (ℚ × Str) :=
  let sgn : Bool × Str :=
    match s with
    | c :: r => if c = '-' then (true, r) else (false, s)
    | [] => (false, s)
  let s1 := sgn.2
  let intDs := s1.takeWhile Char.isDigit
  if intDs.isEmpty then Option.none
  else if intDs.length > 1 && intDs.head? == some '0' then Option.none
  else
    let s2 := s1.drop intDs.length
    let fr : Option (ℚ × Str) :=
      match s2 with
      | c :: r =>
        if c = '.' then
          let fds := r.takeWhile Char.isDigit
          if fds.isEmpty then Option.none
          else some (((digitsVal fds : ℤ) : ℚ) / ((10 : ℚ) ^ fds.length), r.drop fds.length)
        else some (0, s2)
      | [] => some (0, s2)
    match fr with
    | Option.none => Option.none
    | some (fracV, s3) =>
      let ex : Option (ℤ × Str) :=
        match s3 with
        | c :: r =>
          if c = 'e' || c = 'E' then
            let esgn : Bool × Str :=
              match r with
              | d :: r2 => if d = '-' then (true, r2) else if d = '+' then (false, r2) else (false, r)
              | [] => (false, r)
            let eds := esgn.2.takeWhile Char.isDigit
            if eds.isEmpty then Option.none
            else some ((if esgn.1 then -(digitsVal eds : ℤ) else (digitsVal eds : ℤ)),
                       esgn.2.drop eds.length)
          else some (0, s3)
        | [] => some (0, s3)
      match ex with
      | Option.none => Option.none
      | some (e, s4) =>
        let mag : ℚ := (((digitsVal intDs : ℤ) : ℚ) + fracV) * (10 : ℚ) ^ e
        some ((if sgn.1 then -mag else mag), s4)

mutual

/-- Parses one JSON value at the head of the input (after optional
whitespace), with fuel bounding the recursion depth. -/
def jVal : ℕ → Str → Option (PyObj × Str)
  | 0, _ => Option.none
  | f + 1, s =>
    match s.dropWhile jsonWs with
    | [] => Option.none
    | c :: rest =>
      if c = '"' then (jStrBody (f + 1) rest).map (fun pr => (.str pr.1, pr.2))
      else if c = '\x7b' then
        match rest.dropWhile jsonWs with
        | '\x7d' :: r2 => some (.dict [], r2)
        | _ => (jMembers f rest).map (fun pr => (.dict pr.1, pr.2))
      else if c = '[' then
        match rest.dropWhile jsonWs with
        | ']' :: r2 => some (.list [], r2)
        | _ => (jElems f rest).map (fun pr => (.list pr.1, pr.2))
      else if ("true".toList).isPrefixOf (c :: rest) then some (.pybool true, (c :: rest).drop 4)
      else if ("false".toList).isPrefixOf (c :: rest) then some (.pybool false, (c :: rest).drop 5)
      else if ("null".toList).isPrefixOf (c :: rest) then some (.none, (c :: rest).drop 4)
      else (jNum (c :: rest)).map (fun pr => (.num pr.1, pr.2))

/-- Parses the members of a JSON object up to and including the closing
brace (the input is positioned after the opening brace, object nonempty). -/
def jMembers : ℕ → Str → Option (List (Str × PyObj) × Str)
  | 0, _ => Option.none
  | f + 1, s =>
    match s.dropWhile jsonWs with
    | '"' :: rest => do
      let kpr ← jStrBody (f + 1) rest
      match kpr.2.dropWhile jsonWs with
      | ':' :: r2 => do
        let vpr ← jVal f r2
        match vpr.2.dropWhile jsonWs with
        | ',' :: r3 => do
          let mpr ← jMembers f r3
          some ((kpr.1, vpr.1) :: mpr.1, mpr.2)
        | '\x7d' :: r3 => some ([(kpr.1, vpr.1)], r3)
        | _ => Option.none
      | _ => Option.none
    | _ => Option.none

/-- Parses the elements of a JSON array up to and including the closing
bracket (the input is positioned after the opening bracket, array
nonempty). -/
def jElems : ℕ → Str → Option (List PyObj × Str)
  | 0, _ => Option.none
  | f + 1, s => do
    let vpr ← jVal f s
    match vpr.2.dropWhile jsonWs with
    | ',' :: r2 => do
      let epr ← jElems f r2
      some (vpr.1 :: epr.1, epr.2)
    | ']' :: r2 => some ([vpr.1], r2)
    | _ => Option.none

end

/-- Model of json.loads: parses the whole string as one JSON value with
only trailing whitespace allowed; any failure is reported as none (the
caller catches every exception). -/
def jsonLoads (s : Str) : Option PyObj :=
  match jVal (2 * s.length + 4) s with
  | some (v, rest) => if (rest.dropWhile jsonWs).isEmpty then some v else Option.none
  | Option.none => Option.none

/-- Splits at the first closing brace: returns the characters before it and
the remainder after it. -/
def splitAtBrace : Str → Option (Str × Str)
  | [] => Option.none
  | c :: r =>
    if c = '\x7d' then some ([], r)
    else (splitAtBrace r).map (fun pr => (c :: pr.1, pr.2))

/-- Scanner for the non-greedy brace pattern of re.findall: each match runs
from an opening brace to the first closing brace after it, and scanning
resumes after the match. -/
def findBlocksGo (fuel : ℕ) (s : Str) : List Str :=
  match fuel with
  | 0 => []
  | f + 1 =>
    match s with
    | [] => []
    | c :: rest =>
      if c = '\x7b' then
        match splitAtBrace rest with
        | some pr => ('\x7b' :: (pr.1 ++ ['\x7d'])) :: findBlocksGo f pr.2
        | Option.none => []
      else findBlocksGo f rest

/-- Model of re.findall applied to the non-greedy brace regex of
AssistantAgent._extract_json. -/
def findBlocks (s : Str) : List Str := findBlocksGo s.length s

/-- First block that parses as JSON, in order of appearance. -/
def firstParse : List Str → Option PyObj
  | [] => Option.none
  | b :: bs =>
    match jsonLoads b with
    | some v => some v
    | Option.none => firstParse bs

/-- Model of AssistantAgent._extract_json: whole-string parse first, then
the brace-delimited candidates in order. -/
def extractJson (text : Str) : Option PyObj :=
  match jsonLoads text with
  | some v => some v
  | Option.none => firstParse (findBlocks text)

/-- Catalog entry of the dummy map server. -/
structure Place where
  name : Str
  lat : ℚ
  lon : ℚ
  category : Str
deriving DecidableEq, Repr

/-- The static dummy dataset of DummyMapServer. -/
def places : List Place :=
  [⟨"Central Park".toList, 40.785091, -73.968285, "park".toList⟩,
   ⟨"Alice\x27s Restaurant".toList, 40.77, -73.98, "restaurant".toList⟩,
   ⟨"Bob\x27s Coffee Shop".toList, 40.775, -73.97, "cafe".toList⟩,
   ⟨"City Library".toList, 40.7532, -73.9822, "library".toList⟩]

/-- The static category-synonym table, with dict.get(category, []) access. -/
def categorySynonyms (c : Str) : List Str :=
  if c = "restaurant".toList then
    ["restaurant".toList, "restaurants".toList, "food".toList, "dining".toList, "eat".toList]
  else if c = "cafe".toList then
    ["cafe".toList, "cafes".toList, "coffee".toList, "coffeeshop".toList]
  else if c = "library".toList then
    ["library".toList, "libraries".toList, "books".toList]
  else if c = "park".toList then
    ["park".toList, "parks".toList]
  else []

/-- Catalog entries whose lowercased name contains the lowercased query. -/
def geocodeHits (q : Str) : List Place :=
  places.filter (fun p => isSubStr (lowerStr q) (lowerStr p.name))

/-- Geocode result record of DummyMapServer.geocode. -/
def geoHitDict (p : Place) : PyObj :=
  .dict [("name".toList, .str p.name), ("lat".toList, .num p.lat), ("lon".toList, .num p.lon)]

/-- Model of DummyMapServer.geocode: empty list on a falsy query, otherwise
the name-substring matches; a truthy non-string query has no .lower()
attribute and raises. -/
def dummyGeocode (query : PyObj) : Except PyErr PyObj :=
  if pyTruthy query = false then .ok (.list [])
  else
    match query with
    | .str s => .ok (.list ((geocodeHits s).map geoHitDict))
    | _ => .error (.attributeError ("object has no attribute lower".toList))

/-- Model of DummyMapServer._resolve (and the identical coordinate branches
of OpenStreetMapServer._resolve): a string is geocoded and the first hit
taken; a two-element list/tuple or a dict with lat and lon keys has both
values coerced with float(), whose failure propagates as an exception;
anything else resolves to none. -/
def resolveLoc : PyObj → Except PyErr (Option (ℚ × ℚ))
  | .str s =>
    .ok (if s.isEmpty then Option.none
         else ((geocodeHits s).head?).map (fun p => (p.lat, p.lon)))
  | .list xs =>
    match xs with
    | [a, b] => do
      let la ← pyFloat a
      let lo ← pyFloat b
      .ok (some (la, lo))
    | _ => .ok Option.none
  | .dict kvs =>
    if kvs.any (fun kv => kv.1 = "lat".toList) && kvs.any (fun kv => kv.1 = "lon".toList) then
      match dictFind kvs ("lat".toList), dictFind kvs ("lon".toList) with
      | some a, some b => do
        let la ← pyFloat a
        let lo ← pyFloat b
        .ok (some (la, lo))
      | _, _ => .ok Option.none
    else .ok Option.none
  | _ => .ok Option.none

/-- Model of the Python round(x, 3) used for presentation of distances. -/
def round3 (x : ℚ) : ℚ := ((round (x * 1000) : ℤ) : ℚ) / 1000

/-- Model of the Python round(x, 1) used for durations. -/
def round1 (x : ℚ) : ℚ := ((round (x * 10) : ℤ) : ℚ) / 10

/-- Error-dict constructor shared by every adapter failure path. -/
def errDict (m : Str) : PyObj := .dict [("error".toList, .str m)]

/-- Model of DummyMapServer.route, with the haversine computation over
machine floats abstracted as the distance-function parameter dist. -/
def dummyRoute (dist : ℚ × ℚ → ℚ × ℚ → ℚ) (origin destination : PyObj) :
    Except PyErr PyObj := do
  let orig ← resolveLoc origin
  let dest ← resolveLoc destination
  match orig, dest with
  | some a, some b =>
    let d := dist a b
    .ok (.dict [("distance_km".toList, .num (round3 d)),
                ("duration_min".toList, .num (round1 (d / 50 * 60)))])
  | _, _ => .ok (errDict ("Origin or destination not found.".toList))

/-- POI matching predicate of the search_poi loop: lowercased-query
substring of the lowercased name, or equality of the query and a category
synonym after both have every trailing letter s stripped. -/
def pMatch (q : Str) (p : Place) : Bool :=
  isSubStr q (lowerStr p.name)
    || (categorySynonyms (lowerStr p.category)).any (fun c => rstripS q == rstripS c)

/-- Result record appended by search_poi, with distance_km present exactly
when a center was resolved. -/
def poiDict (p : Place) (d : Option ℚ) : PyObj :=
  match d with
  | some dk =>
    .dict [("name".toList, .str p.name), ("category".toList, .str p.category),
           ("lat".toList, .num p.lat), ("lon".toList, .num p.lon),
           ("distance_km".toList, .num dk)]
  | Option.none =>
    .dict [("name".toList, .str p.name), ("category".toList, .str p.category),
           ("lat".toList, .num p.lat), ("lon".toList, .num p.lon)]

/-- The for-loop of search_poi over the catalog: filters by the matching
predicate, and with a resolved center also filters by the 5 km radius and
attaches the rounded distance. -/
def poiLoop (dist : ℚ × ℚ → ℚ × ℚ → ℚ) (center : Option (ℚ × ℚ)) (q : Str) :
    List Place → List PyObj
  | [] => []
  | p :: ps =>
    if pMatch q p then
      match center with
      | some ctr =>
        let d := dist ctr (p.lat, p.lon)
        if 5 < d then poiLoop dist center q ps
        else poiDict p (some (round3 d)) :: poiLoop dist center q ps
      | Option.none => poiDict p Option.none :: poiLoop dist center q ps
    else poiLoop dist center q ps

/-- Sort key of the final results.sort: the distance_km entry, defaulting
to 0 when absent. -/
def keyQ (r : PyObj) : ℚ :=
  match pyGet r ("distance_km".toList) with
  | some (.num d) => d
  | _ => 0

/-- Order relation of the stable sort on results. -/
def keyLE (a b : PyObj) : Prop := keyQ a ≤ keyQ b

instance : DecidableRel keyLE := fun a b => inferInstanceAs (Decidable (keyQ a ≤ keyQ b))

instance : IsTotal PyObj keyLE := ⟨fun a b => le_total (keyQ a) (keyQ b)⟩

instance : IsTrans PyObj keyLE := ⟨fun _ _ _ h1 h2 => le_trans h1 h2⟩

/-- Center resolution of search_poi: a falsy near argument skips resolution
entirely, otherwise _resolve runs (and may raise). -/
def centerOf (near : PyObj) : Except PyErr (Option (ℚ × ℚ)) :=
  if pyTruthy near then resolveLoc near else .ok Option.none

/-- Model of DummyMapServer.search_poi, with the inline haversine over
machine floats abstracted as the distance-function parameter dist. A falsy
query returns the empty list before the center is resolved; a truthy
non-string query has no .lower() attribute and raises. -/
def searchPOI (dist : ℚ × ℚ → ℚ × ℚ → ℚ) (query near : PyObj) :
    Except PyErr (List PyObj) :=
  if pyTruthy query = false then .ok []
  else
    match query with
    | .str s => do
      let q := trimStr (lowerStr s)
      let center ← centerOf near
      let rs := poiLoop dist center q places
      match center with
      | some _ => .ok (List.insertionSort keyLE rs)
      | Option.none => .ok rs
    | _ => .error (.attributeError ("object has no attribute lower".toList))

/-- Model of kwargs.get(k): the bound value, or None when absent. -/
def kwGet (kwargs : List (Str × PyObj)) (k : Str) : PyObj :=
  (dictFind kwargs k).getD .none

/-- Rendering of a value inside an f-string error message; only string
actions occur in practice. -/
def pyToStr : PyObj → Str
  | .str s => s
  | _ => "<value>".toList

/-- The try/except of the tool adapters: a raised exception is converted
to an error dict carrying str(e). -/
def catchPy (x : Except PyErr PyObj) : PyObj :=
  match x with
  | .ok v => v
  | .error e => errDict (errStr e)

/-- Message returned by the dummy poi action when the search is empty. -/
def noPlacesMsg : PyObj :=
  .dict [("message".toList, .str ("No places found matching your search.".toList))]

/-- Model of DummyMapTool.run: dispatches the action to the dummy server,
replaces an empty poi result with the no-places message, returns an
unknown-action error dict for unrecognised actions, and converts any
exception to an error dict. -/
def dummyRun (dist : ℚ × ℚ → ℚ × ℚ → ℚ) (action : PyObj)
    (kwargs : List (Str × PyObj)) : PyObj :=
  catchPy (
    if pyBeq action (.str ("geocode".toList)) then
      dummyGeocode (kwGet kwargs ("query".toList))
    else if pyBeq action (.str ("route".toList)) then
      dummyRoute dist (kwGet kwargs ("origin".toList)) (kwGet kwargs ("destination".toList))
    else if pyBeq action (.str ("poi".toList)) then do
      let rs ← searchPOI dist (kwGet kwargs ("query".toList)) (kwGet kwargs ("near".toList))
      .ok (if rs.isEmpty then noPlacesMsg else .list rs)
    else .ok (errDict (("Unknown action: ".toList) ++ pyToStr action)))

/-- Network-backed operations of OpenStreetMapServer, abstracted as
functions since their behaviour is that of the remote services. -/
structure OsmServer where
  geocode : PyObj → Except PyErr PyObj
  reverseGeocode : ℚ → ℚ → Except PyErr PyObj
  route : PyObj → PyObj → Except PyErr PyObj
  matrix : PyObj → Except PyErr PyObj

/-- Model of OpenStreetMapTool.run: dispatches the action to the OSM
server wrapper, returns an unsupported-action error dict for unrecognised
actions, and converts any exception to an error dict. -/
def osmRun (srv : OsmServer) (action : PyObj) (kwargs : List (Str × PyObj)) : PyObj :=
  catchPy (
    if pyBeq action (.str ("geocode".toList)) then
      srv.geocode (kwGet kwargs ("query".toList))
    else if pyBeq action (.str ("reverse_geocode".toList)) then do
      let latv ← pyIndex (.dict kwargs) ("lat".toList)
      let latq ← pyFloat latv
      let lonv ← pyIndex (.dict kwargs) ("lon".toList)
      let lonq ← pyFloat lonv
      srv.reverseGeocode latq lonq
    else if pyBeq action (.str ("route".toList)) then
      srv.route (kwGet kwargs ("origin".toList)) (kwGet kwargs ("destination".toList))
    else if pyBeq action (.str ("matrix".toList)) then
      let pl := kwGet kwargs ("places".toList)
      if pyTruthy pl = false then .ok (errDict ("Matrix requires a list of places.".toList))
      else srv.matrix pl
    else .ok (errDict (("Unsupported action: ".toList) ++ pyToStr action)))

/-- The params mapping unpacked by ** must be a dict. -/
def asKwargs : PyObj → Except PyErr (List (Str × PyObj))
  | .dict kvs => .ok kvs
  | _ => .error (.typeError ("argument after ** must be a mapping".toList))

/-- Model of the dispatch step of AssistantAgent.run on a non-error plan:
tools.get(plan["tool"]) followed by tool.run(plan["action"],
**plan["params"]). An unregistered tool makes the lookup yield None and
the attribute access tool.run raise AttributeError before the arguments
are evaluated; an unhashable tool value makes the lookup itself raise. -/
def dispatch (dist : ℚ × ℚ → ℚ × ℚ → ℚ) (srv : OsmServer) (plan : PyObj) :
    Except PyErr PyObj := do
  let toolName ← pyIndex plan ("tool".toList)
  match toolName with
  | .list _ => .error (.typeError ("unhashable type".toList))
  | .dict _ => .error (.typeError ("unhashable type".toList))
  | t =>
    if pyBeq t (.str ("dummy".toList)) then do
      let act ← pyIndex plan ("action".toList)
      let params ← pyIndex plan ("params".toList)
      let kwargs ← asKwargs params
      .ok (dummyRun dist act kwargs)
    else if pyBeq t (.str ("osm".toList)) then do
      let act ← pyIndex plan ("action".toList)
      let params ← pyIndex plan ("params".toList)
      let kwargs ← asKwargs params
      .ok (osmRun srv act kwargs)
    else .error (.attributeError ("NoneType object has no attribute run".toList))

/-- Plan built by the "where is X" rule. -/
def geocodePlan (place : Str) : PyObj :=
  .dict [("tool".toList, .str ("osm".toList)), ("action".toList, .str ("geocode".toList)),
         ("params".toList, .dict [("query".toList, .str place)])]

/-- Plan built by the "what is at LAT, LON" rule. -/
def reverseGeocodePlan (la lo : Str) : PyObj :=
  .dict [("tool".toList, .str ("osm".toList)),
         ("action".toList, .str ("reverse_geocode".toList)),
         ("params".toList, .dict [("lat".toList, .str la), ("lon".toList, .str lo)])]

/-- Plan built by the "find X near Y" rule. -/
def poiPlan (q near : Str) : PyObj :=
  .dict [("tool".toList, .str ("dummy".toList)), ("action".toList, .str ("poi".toList)),
         ("params".toList, .dict [("query".toList, .str q), ("near".toList, .str near)])]

/-- Plan built by the "give me a route from X to Y" rule. -/
def routePlan (origin destination : Str) : PyObj :=
  .dict [("tool".toList, .str ("osm".toList)), ("action".toList, .str ("route".toList)),
         ("params".toList,
          .dict [("origin".toList, .str origin), ("destination".toList, .str destination)])]

/-- Plan built by the matrix rule. -/
def matrixPlan (ps : List Str) : PyObj :=
  .dict [("tool".toList, .str ("osm".toList)), ("action".toList, .str ("matrix".toList)),
         ("params".toList, .dict [("places".toList, .list (ps.map PyObj.str))])]

/-- Rule 1, re.match("where is (.+)"): anchored prefix, greedy dot-group to
the end of the line, "located" occurrences removed, result stripped. -/
def ruleWhere (l : Str) : Option PyObj :=
  match dropLit ("where is ".toList) l with
  | some rest =>
    let g := rest.takeWhile notNl
    if g.isEmpty then Option.none
    else some (geocodePlan (trimStr (removeLocated g)))
  | Option.none => Option.none

/-- Rule 2, re.match("what is at ([0-9.\-]+)[ ,]+([0-9.\-]+)"): anchored
prefix, then maximal runs of the two character classes. -/
def ruleWhatAt (l : Str) : Option PyObj :=
  match dropLit ("what is at ".toList) l with
  | some rest =>
    let g1 := rest.takeWhile numClass
    if g1.isEmpty then Option.none
    else
      let r1 := rest.drop g1.length
      let sep := r1.takeWhile sepClass
      if sep.isEmpty then Option.none
      else
        let g2 := (r1.drop sep.length).takeWhile numClass
        if g2.isEmpty then Option.none
        else some (reverseGeocodePlan g1 g2)
  | Option.none => Option.none

/-- Rule 3, re.match("find (.+) near (.+)"): anchored prefix, greedy split
of the first line at the last " near " with text on both sides. -/
def ruleFindNear (l : Str) : Option PyObj :=
  match dropLit ("find ".toList) l with
  | some rest =>
    match lastSplit2 (" near ".toList) (rest.takeWhile notNl) with
    | some pr => some (poiPlan (trimStr pr.1) (trimStr pr.2))
    | Option.none => Option.none
  | Option.none => Option.none

/-- Rule 4, re.match("give me a route from (.+) to (.+)"): anchored prefix,
greedy split of the first line at the last " to " with text on both
sides. -/
def ruleRoute (l : Str) : Option PyObj :=
  match dropLit ("give me a route from ".toList) l with
  | some rest =>
    match lastSplit2 (" to ".toList) (rest.takeWhile notNl) with
    | some pr => some (routePlan (trimStr pr.1) (trimStr pr.2))
    | Option.none => Option.none
  | Option.none => Option.none

/-- Rule 5, gated by "matrix" in lower: re.search("matrix (for )?(.*)")
finds the first occurrence of "matrix " anywhere, optionally consumes
"for ", and splits the rest of the line on commas; an empty place list or
no match yields the matrix error dict directly. -/
def ruleMatrix (l : Str) : Option PyObj :=
  if isSubStr ("matrix".toList) l then
    some (match dropToAfter ("matrix ".toList) l with
      | some rest =>
        let rest2 := if ("for ".toList).isPrefixOf rest then rest.drop 4 else rest
        let ps := ((splitComma (rest2.takeWhile notNl)).map trimStr).filter
          (fun x => !x.isEmpty)
        if ps.isEmpty then errDict ("Could not extract places for matrix.".toList)
        else matrixPlan ps
      | Option.none => errDict ("Could not extract places for matrix.".toList))
  else Option.none

/-- The ordered hard rules of AssistantAgent.interpret, first match wins. -/
def hardRules (l : Str) : Option PyObj :=
  match ruleWhere l with
  | some j => some j
  | Option.none =>
  match ruleWhatAt l with
  | some j => some j
  | Option.none =>
  match ruleFindNear l with
  | some j => some j
  | Option.none =>
  match ruleRoute l with
  | some j => some j
  | Option.none => ruleMatrix l

/-- The repeat keywords accepted by interpret. -/
def repeatWords : List Str := ["again".toList, "repeat".toList, "same".toList]

/-- Failure object of the model fallback, carrying the raw model text. -/
def errFail (raw : Str) : PyObj :=
  .dict [("error".toList, .str ("Failed to interpret".toList)), ("raw".toList, .str raw)]

/-- The generative-model fallback of interpret: the oracle chat stands for
the model call on the raw user text; its output is passed through the
JSON extractor, and a truthy extracted value containing a "tool" key
becomes the plan and the new retained last plan. The membership test
itself can raise on non-iterable extracted values. -/
def llmFallback (chat : Str → Str) (st : Option PyObj) (raw : Str) :
    Except PyErr (PyObj × Option PyObj) :=
  let out := chat raw
  match extractJson out with
  | some plan =>
    if pyTruthy plan then
      match pyContainsKey ("tool".toList) plan with
      | .error e => .error e
      | .ok true => .ok (plan, some plan)
      | .ok false => .ok (errFail out, st)
    else .ok (errFail out, st)
  | Option.none => .ok (errFail out, st)

/-- Model of AssistantAgent.interpret: strips and lowercases the message,
applies the ordered hard rules, then the repeat branch — whose guard is
the Python conjunction of the keyword test and the truthiness of the
retained plan, so it falls through to the fallback when no plan is
retained or the retained value is falsy — then the generative-model
fallback. Returns the produced value together with the retained last
plan after the call. -/
def interpret (chat : Str → Str) (st : Option PyObj) (msg : Str) :
    Except PyErr (PyObj × Option PyObj) :=
  let raw := trimStr msg
  let lower := lowerStr raw
  match hardRules lower with
  | some j => .ok (j, st)
  | Option.none =>
    if repeatWords.contains lower then
      match st with
      | some p => if pyTruthy p then .ok (p, st) else llmFallback chat st raw
      | Option.none => llmFallback chat st raw
    else llmFallback chat st raw

/-- String values of one params entry: a plain string, or the strings of a
list value (the matrix place list). -/
def topStrs (v : PyObj) : List Str :=
  match v with
  | .str s => [s]
  | .list xs => xs.filterMap (fun x => match x with | .str s => some s | _ => Option.none)
  | _ => []

/-- All textual parameters carried by a params mapping of a plan. -/
def paramStrs (plan : PyObj) : List Str :=
  match pyGet plan ("params".toList) with
  | some (.dict kvs) => kvs.flatMap (fun kv => topStrs kv.2)
  | _ => []

/-- True when the string contains no uppercase ASCII letter. -/
def noUpStr (s : Str) : Bool := s.all (fun c => !c.isUpper)

/-- True when every textual parameter of the plan is free of uppercase
letters, i.e. the original casing of the user text is not preserved. -/
def paramsLower (plan : PyObj) : Bool := (paramStrs plan).all noUpStr

/-- Strips at most one trailing letter s. -/
def stripOneS (s : Str) : Str :=
  match s.getLast? with
  | some c => if c = 's' then s.dropLast else s
  | Option.none => s

/-- Matching predicate as worded by the specification claim: lowercased
query a substring of the (lowercased) name, or the query equal to a
registered synonym of the category of the entry after a single trailing s
has been stripped from each side. -/
def poiMatchSpec (query : Str) (p : Place) : Bool :=
  isSubStr (lowerStr query) (lowerStr p.name)
    || (categorySynonyms (lowerStr p.category)).any
        (fun c => stripOneS (lowerStr query) == stripOneS c)

/-- Degrees to radians, as math.radians over the reals. -/
noncomputable def radiansR (d : ℝ) : ℝ := d * (Real.pi / 180)

/-- The math.atan2 convention over the reals. -/
noncomputable def atan2R (y x : ℝ) : ℝ :=
  if 0 < x then Real.arctan (y / x)
  else if x < 0 then
    (if 0 ≤ y then Real.arctan (y / x) + Real.pi else Real.arctan (y / x) - Real.pi)
  else (if 0 < y then Real.pi / 2 else if y < 0 then -(Real.pi / 2) else 0)

/-- The haversine intermediate term a of DummyMapServer.route and
search_poi, over the reals. -/
noncomputable def havTerm (a b : ℝ × ℝ) : ℝ :=
  Real.sin (radiansR (b.1 - a.1) / 2) ^ 2
    + Real.cos (radiansR a.1) * Real.cos (radiansR b.1)
      * Real.sin (radiansR (b.2 - a.2) / 2) ^ 2

/-- The great-circle distance of the local backend: R * c with R = 6371 km
and c = 2 * atan2(sqrt a, sqrt(1 - a)), over the reals. -/
noncomputable def greatCircleKm (a b : ℝ × ℝ) : ℝ :=
  6371 * (2 * atan2R (Real.sqrt (havTerm a b)) (Real.sqrt (1 - havTerm a b)))

/-- Presentation rounding round(x, 3) over the reals. -/
noncomputable def round3R (x : ℝ) : ℝ := ((round (x * 1000) : ℤ) : ℝ) / 1000
mutual

/-- Decidable equality on PyObj (by structural mutual recursion). -/
def pyDecEq : (a b : PyObj) → Decidable (a = b)
  | .none, .none => isTrue rfl
  | .none, .pybool _ => isFalse (fun h => nomatch h)
  | .none, .num _ => isFalse (fun h => nomatch h)
  | .none, .str _ => isFalse (fun h => nomatch h)
  | .none, .list _ => isFalse (fun h => nomatch h)
  | .none, .dict _ => isFalse (fun h => nomatch h)
  | .pybool _, .none => isFalse (fun h => nomatch h)
  | .pybool a, .pybool b =>
    match decEq a b with
    | isTrue h => isTrue (by rw [h])
    | isFalse h => isFalse (fun hh => h (PyObj.pybool.inj hh))
  | .pybool _, .num _ => isFalse (fun h => nomatch h)
  | .pybool _, .str _ => isFalse (fun h => nomatch h)
  | .pybool _, .list _ => isFalse (fun h => nomatch h)
  | .pybool _, .dict _ => isFalse (fun h => nomatch h)
  | .num _, .none => isFalse (fun h => nomatch h)
  | .num _, .pybool _ => isFalse (fun h => nomatch h)
  | .num a, .num b =>
    match decEq a b with
    | isTrue h => isTrue (by rw [h])
    | isFalse h => isFalse (fun hh => h (PyObj.num.inj hh))
  | .num _, .str _ => isFalse (fun h => nomatch h)
  | .num _, .list _ => isFalse (fun h => nomatch h)
  | .num _, .dict _ => isFalse (fun h => nomatch h)
  | .str _, .none => isFalse (fun h => nomatch h)
  | .str _, .pybool _ => isFalse (fun h => nomatch h)
  | .str _, .num _ => isFalse (fun h => nomatch h)
  | .str a, .str b =>
    match decEq a b with
    | isTrue h => isTrue (by rw [h])
    | isFalse h => isFalse (fun hh => h (PyObj.str.inj hh))
  | .str _, .list _ => isFalse (fun h => nomatch h)
  | .str _, .dict _ => isFalse (fun h => nomatch h)
  | .list _, .none => isFalse (fun h => nomatch h)
  | .list _, .pybool _ => isFalse (fun h => nomatch h)
  | .list _, .num _ => isFalse (fun h => nomatch h)
  | .list _, .str _ => isFalse (fun h => nomatch h)
  | .list xs, .list ys =>
    match pyDecEqList xs ys with
    | isTrue h => isTrue (by rw [h])
    | isFalse h => isFalse (fun hh => h (PyObj.list.inj hh))
  | .list _, .dict _ => isFalse (fun h => nomatch h)
  | .dict _, .none => isFalse (fun h => nomatch h)
  | .dict _, .pybool _ => isFalse (fun h => nomatch h)
  | .dict _, .num _ => isFalse (fun h => nomatch h)
  | .dict _, .str _ => isFalse (fun h => nomatch h)
  | .dict _, .list _ => isFalse (fun h => nomatch h)
  | .dict xs, .dict ys =>
    match pyDecEqKvs xs ys with
    | isTrue h => isTrue (by rw [h])
    | isFalse h => isFalse (fun hh => h (PyObj.dict.inj hh))

/-- Decidable equality on lists of PyObj. -/
def pyDecEqList : (xs ys : List PyObj) → Decidable (xs = ys)
  | [], [] => isTrue rfl
  | [], _ :: _ => isFalse (fun h => nomatch h)
  | _ :: _, [] => isFalse (fun h => nomatch h)
  | x :: xs, y :: ys =>
    match pyDecEq x y with
    | isTrue h1 =>
      match pyDecEqList xs ys with
      | isTrue h2 => isTrue (by rw [h1, h2])
      | isFalse h2 => isFalse (fun hh => h2 (List.cons.inj hh).2)
    | isFalse h1 => isFalse (fun hh => h1 (List.cons.inj hh).1)

/-- Decidable equality on dict entry lists. -/
def pyDecEqKvs : (xs ys : List (Str × PyObj)) → Decidable (xs = ys)
  | [], [] => isTrue rfl
  | [], _ :: _ => isFalse (fun h => nomatch h)
  | _ :: _, [] => isFalse (fun h => nomatch h)
  | (k1, v1) :: xs, (k2, v2) :: ys =>
    match decEq k1 k2 with
    | isTrue hk =>
      match pyDecEq v1 v2 with
      | isTrue hv =>
        match pyDecEqKvs xs ys with
        | isTrue ht => isTrue (by rw [hk, hv, ht])
        | isFalse ht => isFalse (fun hh => ht (List.cons.inj hh).2)
      | isFalse hv =>
        isFalse (fun hh => hv (congrArg Prod.snd (List.cons.inj hh).1))
    | isFalse hk => isFalse (fun hh => hk (congrArg Prod.fst (List.cons.inj hh).1))

end

instance : DecidableEq PyObj := pyDecEq

/-- Query normalisation performed by search_poi: lower then strip. -/
def procQ (s : Str) : Str := trimStr (lowerStr s)

/-- Soundness of a near-filtered result list, as a decidable check: every
record stems from a catalog entry that matches the query, lies within
5 km of the center for the given distance function, and carries that
rounded distance in its distance_km field. -/
def poiSoundB (dist : ℚ × ℚ → ℚ × ℚ → ℚ) (c : ℚ × ℚ) (s : Str) (rs : List PyObj) : Bool :=
  rs.all (fun r => places.any (fun p =>
    pMatch (procQ s) p && decide (dist c (p.lat, p.lon) ≤ 5)
      && decide (r = poiDict p (some (round3 (dist c (p.lat, p.lon)))))))

/-- Every record carries a distance_km entry. -/
def hasDistAllB (rs : List PyObj) : Bool :=
  rs.all (fun r => (pyGet r ("distance_km".toList)).isSome)

/-- No record carries a distance_km entry. -/
def noDistAllB (rs : List PyObj) : Bool :=
  rs.all (fun r => (pyGet r ("distance_km".toList)).isNone)

/-- Decidable check that the records are in non-decreasing order of their
distance_km sort key. -/
def sortedKeyB : List PyObj → Bool
  | [] => true
  | [_] => true
  | a :: b :: t => decide (keyQ a ≤ keyQ b) && sortedKeyB (b :: t)

/-- Concrete oracle that answers nothing (used by witnesses). -/
def chatEmpty : Str → Str := fun _ => []

/-- Concrete oracle answering a flat JSON plan (used by counterexamples). -/
def chatTool : Str → Str := fun _ => ("\x7b\"tool\": \"dummy\"\x7d").toList

/-- Inert OSM server stub for concrete dispatch evaluations. -/
def osmStub : OsmServer :=
  ⟨fun _ => .ok (.list []), fun _ _ => .ok .none, fun _ _ => .ok .none, fun _ => .ok .none⟩

/-- The literal fixture string of the JSON-extractor claim. -/
def c2Input : Str :=
  ("The answer is \x7b\"tool\":\"osm\",\"action\":\"geocode\",\"params\":\x7b\"query\":\"Rome\"\x7d\x7d — done").toList

/-- First catalog entry, as a named fixture. -/
def centralPark : Place := ⟨"Central Park".toList, 40.785091, -73.968285, "park".toList⟩

theorem toLower_isUpper_false (c : Char) : (Char.toLower c).isUpper = false := by
  have key : ∀ d : Char, d.toNat < 65 ∨ 90 < d.toNat → d.isUpper = false := by
    intro d hd
    have e65 : (65 : UInt32).toNat = 65 := rfl
    have e90 : (90 : UInt32).toNat = 90 := rfl
    simp only [Char.isUpper, Bool.and_eq_false_iff, decide_eq_false_iff_not, ge_iff_le, not_le]
    rcases hd with h | h
    · left
      show (65 : UInt32) ≤ d.val → False
      intro hle
      have hnat : (65 : UInt32).toNat ≤ d.val.toNat := hle
      rw [e65] at hnat
      exact absurd hnat (by simpa [Char.toNat] using h)
    · right
      show d.val ≤ (90 : UInt32) → False
      intro hle
      have hnat : d.val.toNat ≤ (90 : UInt32).toNat := hle
      rw [e90] at hnat
      have h' : 90 < d.val.toNat := h
      omega
  simp only [Char.toLower]
  split
  · rename_i h
    apply key
    have hvalid : (c.toNat + 32).isValidChar := by
      left
      omega
    rw [Char.ofNat, dif_pos hvalid]
    have hred : (Char.ofNatAux (c.toNat + 32) hvalid).toNat = c.toNat + 32 := rfl
    rw [hred]
    right
    omega
  · rename_i h
    apply key
    rw [not_and_or] at h
    simp only [not_le] at h
    omega

theorem noUpStr_lowerStr (s : Str) : noUpStr (lowerStr s) = true := by
  simp only [noUpStr, lowerStr, List.all_map, List.all_eq_true]
  intro c _
  simp [toLower_isUpper_false]

theorem noUpStr_subset {s t : Str} (hsub : ∀ c, c ∈ s → c ∈ t)
    (ht : noUpStr t = true) : noUpStr s = true := by
  simp only [noUpStr, List.all_eq_true] at ht ⊢
  exact fun c hc => ht c (hsub c hc)

theorem mem_trimStr {c : Char} {s : Str} (h : c ∈ trimStr s) : c ∈ s := by
  unfold trimStr at h
  rw [List.mem_reverse] at h
  have h2 := (List.dropWhile_sublist wsChar).subset h
  rw [List.mem_reverse] at h2
  exact (List.dropWhile_sublist wsChar).subset h2

theorem mem_removeLocatedGo {c : Char} :
    ∀ (f : ℕ) {s : Str}, c ∈ removeLocatedGo f s → c ∈ s := by
  intro f
  induction f with
  | zero => intro s h; exact h
  | succ f ih =>
    intro s h
    match s with
    | [] => exact h
    | d :: rest =>
      rw [removeLocatedGo] at h
      split at h
      · exact List.mem_cons_of_mem d ((List.drop_sublist 6 rest).subset (ih h))
      · rcases List.mem_cons.1 h with h1 | h1
        · exact h1 ▸ List.mem_cons_self d rest
        · exact List.mem_cons_of_mem d (ih h1)

theorem mem_removeLocated {c : Char} {s : Str} (h : c ∈ removeLocated s) : c ∈ s :=
  mem_removeLocatedGo s.length h

theorem mem_splitComma {s : Str} {x : Str} (hx : x ∈ splitComma s) :
    ∀ {c}, c ∈ x → c ∈ s := by
  induction s generalizing x with
  | nil =>
    intro c hc
    simp only [splitComma, List.mem_singleton] at hx
    subst hx
    exact absurd hc (List.not_mem_nil c)
  | cons d rest ih =>
    intro c hc
    rw [splitComma] at hx
    by_cases hd : d = ','
    · rw [if_pos hd] at hx
      rcases List.mem_cons.1 hx with h1 | h1
      · subst h1; exact absurd hc (List.not_mem_nil c)
      · exact List.mem_cons_of_mem d (ih h1 hc)
    · rw [if_neg hd] at hx
      rcases hrec : splitComma rest with _ | ⟨h0, t0⟩
      · rw [hrec] at hx
        simp only [List.mem_singleton] at hx
        subst hx
        have h1 := List.mem_singleton.1 hc
        exact h1 ▸ List.mem_cons_self d rest
      · rw [hrec] at hx
        have hh0 : h0 ∈ splitComma rest := by
          rw [hrec]; exact List.mem_cons_self h0 t0
        rcases List.mem_cons.1 hx with h1 | h1
        · subst h1
          rcases List.mem_cons.1 hc with h2 | h2
          · exact h2 ▸ List.mem_cons_self d rest
          · exact List.mem_cons_of_mem d (ih hh0 h2)
        · have ht1 : x ∈ splitComma rest := by
            rw [hrec]; exact List.mem_cons_of_mem h0 h1
          exact List.mem_cons_of_mem d (ih ht1 hc)

theorem mem_allSplits {sep : Str} {s : Str} {pr : Str × Str} (h : pr ∈ allSplits sep s) :
    (∀ c, c ∈ pr.1 → c ∈ s) ∧ (∀ c, c ∈ pr.2 → c ∈ s) := by
  induction s generalizing pr with
  | nil =>
    rw [allSplits] at h
    split at h
    · simp only [List.mem_singleton] at h
      subst h
      exact ⟨fun c hc => absurd hc (List.not_mem_nil c),
             fun c hc => absurd hc (List.not_mem_nil c)⟩
    · exact absurd h (List.not_mem_nil pr)
  | cons d rest ih =>
    rw [allSplits] at h
    rcases List.mem_append.1 h with h1 | h1
    · split at h1
      · simp only [List.mem_singleton] at h1
        subst h1
        refine ⟨fun c hc => absurd hc (List.not_mem_nil c), fun c hc => ?_⟩
        exact (List.drop_sublist sep.length (d :: rest)).subset hc
      · exact absurd h1 (List.not_mem_nil pr)
    · rcases List.mem_map.1 h1 with ⟨pr0, hpr0, heq⟩
      have hih := ih hpr0
      subst heq
      refine ⟨fun c hc => ?_, fun c hc => List.mem_cons_of_mem d (hih.2 c hc)⟩
      rcases List.mem_cons.1 hc with h2 | h2
      · exact h2 ▸ List.mem_cons_self d rest
      · exact List.mem_cons_of_mem d (hih.1 c h2)

theorem mem_lastSplit2 {sep s : Str} {pr : Str × Str} (h : lastSplit2 sep s = some pr) :
    (∀ c, c ∈ pr.1 → c ∈ s) ∧ (∀ c, c ∈ pr.2 → c ∈ s) := by
  unfold lastSplit2 at h
  have hmem := List.mem_of_mem_getLast? h
  exact mem_allSplits (List.mem_filter.1 hmem).1

theorem mem_dropToAfter {pat : Str} {c : Char} :
    ∀ {s rest : Str}, dropToAfter pat s = some rest → c ∈ rest → c ∈ s := by
  intro s
  induction s with
  | nil =>
    intro rest h hc
    rw [dropToAfter] at h
    split at h
    · injection h with h'
      subst h'
      exact absurd hc (List.not_mem_nil c)
    · exact absurd h (by simp)
  | cons d tl ih =>
    intro rest h hc
    rw [dropToAfter] at h
    split at h
    · injection h with h'
      subst h'
      exact (List.drop_sublist pat.length (d :: tl)).subset hc
    · exact List.mem_cons_of_mem d (ih h hc)

theorem dropLit_eq {pat l rest : Str} (h : dropLit pat l = some rest) :
    rest = l.drop pat.length := by
  unfold dropLit at h
  split at h
  · injection h with h'
    exact h'.symm
  · exact absurd h (by simp)

theorem paramsLower_geocodePlan (x : Str) :
    paramsLower (geocodePlan x) = noUpStr x := by
  simp [paramsLower, paramStrs, geocodePlan, pyGet, dictFind, topStrs]

theorem paramsLower_reverseGeocodePlan (a b : Str) :
    paramsLower (reverseGeocodePlan a b) = (noUpStr a && noUpStr b) := by
  simp [paramsLower, paramStrs, reverseGeocodePlan, pyGet, dictFind, topStrs]

theorem paramsLower_poiPlan (a b : Str) :
    paramsLower (poiPlan a b) = (noUpStr a && noUpStr b) := by
  simp [paramsLower, paramStrs, poiPlan, pyGet, dictFind, topStrs]

theorem paramsLower_routePlan (a b : Str) :
    paramsLower (routePlan a b) = (noUpStr a && noUpStr b) := by
  simp [paramsLower, paramStrs, routePlan, pyGet, dictFind, topStrs]

theorem strsRoundtrip (ps : List Str) :
    (ps.map PyObj.str).filterMap
      (fun x => match x with | .str s => some s | _ => Option.none) = ps := by
  induction ps with
  | nil => rfl
  | cons h t ih => simp only [List.map_cons, List.filterMap_cons, ih]

theorem paramsLower_matrixPlan (ps : List Str) :
    paramsLower (matrixPlan ps) = ps.all noUpStr := by
  simp [paramsLower, paramStrs, matrixPlan, pyGet, dictFind, topStrs, strsRoundtrip]

theorem paramsLower_errDict (m : Str) : paramsLower (errDict m) = true := rfl

theorem ruleWhere_params {l : Str} {j : PyObj} (hl : noUpStr l = true)
    (h : ruleWhere l = some j) : paramsLower j = true := by
  simp only [ruleWhere] at h
  split at h
  · rename_i rest heq
    split at h
    · exact absurd h (by simp)
    · injection h with h'
      subst h'
      rw [paramsLower_geocodePlan]
      refine noUpStr_subset (fun c hc => ?_) hl
      have h1 := mem_trimStr hc
      have h2 := mem_removeLocated h1
      have h3 := (List.takeWhile_sublist notNl).subset h2
      rw [dropLit_eq heq] at h3
      exact (List.drop_sublist _ l).subset h3
  · exact absurd h (by simp)

theorem ruleWhatAt_params {l : Str} {j : PyObj} (hl : noUpStr l = true)
    (h : ruleWhatAt l = some j) : paramsLower j = true := by
  simp only [ruleWhatAt] at h
  split at h
  · rename_i rest heq
    split at h
    · exact absurd h (by simp)
    · split at h
      · exact absurd h (by simp)
      · split at h
        · exact absurd h (by simp)
        · injection h with h'
          subst h'
          rw [paramsLower_reverseGeocodePlan]
          have hrl : ∀ c, c ∈ rest → c ∈ l := by
            intro c hc
            rw [dropLit_eq heq] at hc
            exact (List.drop_sublist _ l).subset hc
          have hg1 : noUpStr (rest.takeWhile numClass) = true := by
            refine noUpStr_subset (fun c hc => ?_) hl
            exact hrl c ((List.takeWhile_sublist numClass).subset hc)
          have hg2 :
              noUpStr
                (((rest.drop (rest.takeWhile numClass).length).drop
                  ((rest.drop (rest.takeWhile numClass).length).takeWhile
                    sepClass).length).takeWhile numClass) = true := by
            refine noUpStr_subset (fun c hc => ?_) hl
            have h1 := (List.takeWhile_sublist numClass).subset hc
            have h2 := (List.drop_sublist _ _).subset h1
            have h3 := (List.drop_sublist _ _).subset h2
            exact hrl c h3
          rw [hg1, hg2]
          rfl
  · exact absurd h (by simp)

theorem ruleFindNear_params {l : Str} {j : PyObj} (hl : noUpStr l = true)
    (h : ruleFindNear l = some j) : paramsLower j = true := by
  simp only [ruleFindNear] at h
  split at h
  · rename_i rest heq
    split at h
    · rename_i pr hsp
      injection h with h'
      subst h'
      rw [paramsLower_poiPlan]
      have hrl : ∀ c, c ∈ rest.takeWhile notNl → c ∈ l := by
        intro c hc
        have h1 := (List.takeWhile_sublist notNl).subset hc
        rw [dropLit_eq heq] at h1
        exact (List.drop_sublist _ l).subset h1
      have hm := mem_lastSplit2 hsp
      have h1 : noUpStr (trimStr pr.1) = true :=
        noUpStr_subset (fun c hc => hrl c (hm.1 c (mem_trimStr hc))) hl
      have h2 : noUpStr (trimStr pr.2) = true :=
        noUpStr_subset (fun c hc => hrl c (hm.2 c (mem_trimStr hc))) hl
      rw [h1, h2]
      rfl
    · exact absurd h (by simp)
  · exact absurd h (by simp)

theorem ruleRoute_params {l : Str} {j : PyObj} (hl : noUpStr l = true)
    (h : ruleRoute l = some j) : paramsLower j = true := by
  simp only [ruleRoute] at h
  split at h
  · rename_i rest heq
    split at h
    · rename_i pr hsp
      injection h with h'
      subst h'
      rw [paramsLower_routePlan]
      have hrl : ∀ c, c ∈ rest.takeWhile notNl → c ∈ l := by
        intro c hc
        have h1 := (List.takeWhile_sublist notNl).subset hc
        rw [dropLit_eq heq] at h1
        exact (List.drop_sublist _ l).subset h1
      have hm := mem_lastSplit2 hsp
      have h1 : noUpStr (trimStr pr.1) = true :=
        noUpStr_subset (fun c hc => hrl c (hm.1 c (mem_trimStr hc))) hl
      have h2 : noUpStr (trimStr pr.2) = true :=
        noUpStr_subset (fun c hc => hrl c (hm.2 c (mem_trimStr hc))) hl
      rw [h1, h2]
      rfl
    · exact absurd h (by simp)
  · exact absurd h (by simp)

theorem ruleMatrix_params {l : Str} {j : PyObj} (hl : noUpStr l = true)
    (h : ruleMatrix l = some j) : paramsLower j = true := by
  simp only [ruleMatrix] at h
  split at h
  · injection h with h'
    subst h'
    split
    · rename_i rest heq
      split
      · split
        · exact paramsLower_errDict _
        · rw [paramsLower_matrixPlan, List.all_eq_true]
          intro x hx
          rcases List.mem_filter.1 hx with ⟨hx1, _⟩
          rcases List.mem_map.1 hx1 with ⟨y, hy, hxy⟩
          subst hxy
          refine noUpStr_subset (fun c hc => ?_) hl
          have h1 := mem_trimStr hc
          have h2 := mem_splitComma hy h1
          have h3 := (List.takeWhile_sublist notNl).subset h2
          have h4 := (List.drop_sublist 4 rest).subset h3
          exact mem_dropToAfter heq h4
      · split
        · exact paramsLower_errDict _
        · rw [paramsLower_matrixPlan, List.all_eq_true]
          intro x hx
          rcases List.mem_filter.1 hx with ⟨hx1, _⟩
          rcases List.mem_map.1 hx1 with ⟨y, hy, hxy⟩
          subst hxy
          refine noUpStr_subset (fun c hc => ?_) hl
          have h1 := mem_trimStr hc
          have h2 := mem_splitComma hy h1
          have h3 := (List.takeWhile_sublist notNl).subset h2
          exact mem_dropToAfter heq h3
    · exact paramsLower_errDict _
  · exact absurd h (by simp)

theorem hardRules_params {l : Str} {j : PyObj} (hl : noUpStr l = true)
    (h : hardRules l = some j) : paramsLower j = true := by
  unfold hardRules at h
  cases h1 : ruleWhere l with
  | some j1 =>
    rw [h1] at h
    injection h with h'
    exact h' ▸ ruleWhere_params hl h1
  | none =>
    rw [h1] at h
    cases h2 : ruleWhatAt l with
    | some j2 =>
      rw [h2] at h
      injection h with h'
      exact h' ▸ ruleWhatAt_params hl h2
    | none =>
      rw [h2] at h
      cases h3 : ruleFindNear l with
      | some j3 =>
        rw [h3] at h
        injection h with h'
        exact h' ▸ ruleFindNear_params hl h3
      | none =>
        rw [h3] at h
        cases h4 : ruleRoute l with
        | some j4 =>
          rw [h4] at h
          injection h with h'
          exact h' ▸ ruleRoute_params hl h4
        | none =>
          rw [h4] at h
          exact ruleMatrix_params hl h

/-- C9: for every input matched by one of the ordered rule patterns of
interpret, the textual parameters of the produced plan are taken from the
lowercased form of the input, so they never preserve the original casing
of the user text (no uppercase ASCII letter survives). -/
theorem rule_params_lowercased (msg : Str) (j : PyObj)
    (h : hardRules (lowerStr (trimStr msg)) = some j) : paramsLower j = true :=
  hardRules_params (noUpStr_lowerStr (trimStr msg)) h

/-- Witness for C9: the rule-matched input "Where is The EIFFEL Tower"
yields a plan whose textual parameters carry no uppercase letter. -/
theorem rule_params_lowercased_w :
    paramsLower (geocodePlan ("the eiffel tower".toList)) = true :=
  rule_params_lowercased ("Where is The EIFFEL Tower".toList)
    (geocodePlan ("the eiffel tower".toList)) rfl

theorem llmFallback_state (chat : Str → Str) (st : Option PyObj) (raw : Str)
    (r : PyObj) (st' : Option PyObj) (h : llmFallback chat st raw = .ok (r, st')) :
    st' = st ∨ (st' = some r ∧ pyTruthy r = true) := by
  simp only [llmFallback] at h
  cases hex : extractJson (chat raw) with
  | none =>
    simp only [hex] at h
    injection h with h'
    injection h' with h1 h2
    exact Or.inl h2.symm
  | some plan =>
    simp only [hex] at h
    by_cases ht : pyTruthy plan = true
    · rw [if_pos ht] at h
      cases hc : pyContainsKey ("tool".toList) plan with
      | error e =>
        simp only [hc] at h
        exact absurd h (by simp)
      | ok b =>
        simp only [hc] at h
        cases b with
        | true =>
          injection h with h'
          injection h' with h1 h2
          subst h1
          exact Or.inr ⟨h2.symm, ht⟩
        | false =>
          injection h with h'
          injection h' with h1 h2
          exact Or.inl h2.symm
    · rw [if_neg ht] at h
      injection h with h'
      injection h' with h1 h2
      exact Or.inl h2.symm

/-- C1 (amended): the retained last plan is never overwritten except by the
generative-model fallback, which sets it to exactly the value it returns
(a truthy extracted object) on an input no hard rule matched; every other
path — rule-based plans, the repeat echo, the rule-level matrix error and
every fallback failure — leaves it unchanged. -/
theorem interpret_lastPlan (chat : Str → Str) (st : Option PyObj) (msg : Str)
    (r : PyObj) (st' : Option PyObj) (h : interpret chat st msg = .ok (r, st')) :
    st' = st ∨ (st' = some r ∧ hardRules (lowerStr (trimStr msg)) = Option.none
      ∧ pyTruthy r = true) := by
  simp only [interpret] at h
  cases hhr : hardRules (lowerStr (trimStr msg)) with
  | some j =>
    simp only [hhr] at h
    injection h with h'
    injection h' with h1 h2
    exact Or.inl h2.symm
  | none =>
    simp only [hhr] at h
    split at h
    · split at h
      · rename_i p
        split at h
        · injection h with h'
          injection h' with h1 h2
          exact Or.inl h2.symm
        · rcases llmFallback_state chat (some p) (trimStr msg) r st' h with h1 | h1
          · exact Or.inl h1
          · exact Or.inr ⟨h1.1, rfl, h1.2⟩
      · rcases llmFallback_state chat Option.none (trimStr msg) r st' h with h1 | h1
        · exact Or.inl h1
        · exact Or.inr ⟨h1.1, rfl, h1.2⟩
    · rcases llmFallback_state chat st (trimStr msg) r st' h with h1 | h1
      · exact Or.inl h1
      · exact Or.inr ⟨h1.1, rfl, h1.2⟩

/-- Witness for the amended C1 theorem: on an unmatched input with an oracle
returning no JSON, the fallback fails and the retained plan (here empty)
is unchanged. -/
theorem interpret_lastPlan_w :
    (Option.none : Option PyObj) = Option.none
      ∨ ((Option.none : Option PyObj) = some (errFail [])
          ∧ hardRules (lowerStr (trimStr ("hello".toList))) = Option.none
          ∧ pyTruthy (errFail []) = true) :=
  interpret_lastPlan chatEmpty Option.none ("hello".toList) (errFail []) Option.none rfl

/-- Counterexample to C1 as stated: the rule-derived plan for "Where is
Paris" is returned successfully, yet the retained last plan stays empty
instead of becoming that plan. -/
theorem interpret_lastPlan_cx :
    interpret chatEmpty Option.none ("Where is Paris".toList)
        = .ok (geocodePlan ("paris".toList), Option.none)
      ∧ (Option.none : Option PyObj) ≠ some (geocodePlan ("paris".toList)) := by
  constructor
  · rfl
  · simp

/-- C2: the JSON extractor applied to the fixture string returns none: the
non-greedy brace pattern truncates the nested object at the first closing
brace, the truncated candidate does not parse, and no other candidate
exists, contradicting the specified extraction of the embedded object. -/
theorem extractJson_c2_none : extractJson c2Input = Option.none := rfl

/-- C3 (amended): a repeat keyword with a retained truthy plan (and the
fallback only ever retains truthy objects) returns exactly that plan and
keeps it retained; with no retained plan the guard fails its second
conjunct and the turn falls through to the generative-model fallback on
the stripped text (so its outcome is whatever the fallback produces, not
necessarily a failure). -/
theorem interpret_repeat (chat : Str → Str) (msg : Str) (p : PyObj)
    (hmem : lowerStr (trimStr msg) ∈ repeatWords) (hp : pyTruthy p = true) :
    interpret chat (some p) msg = .ok (p, some p)
      ∧ interpret chat Option.none msg = llmFallback chat Option.none (trimStr msg) := by
  have hhr : hardRules (lowerStr (trimStr msg)) = Option.none := by
    simp only [repeatWords, List.mem_cons, List.not_mem_nil, or_false] at hmem
    rcases hmem with h | h | h <;> rw [h] <;> rfl
  have hcontains : repeatWords.contains (lowerStr (trimStr msg)) = true :=
    List.elem_eq_true_of_mem hmem
  constructor
  · simp only [interpret]
    rw [hhr, if_pos hcontains]
    simp only [hp, if_true]
  · simp only [interpret]
    rw [hhr, if_pos hcontains]

/-- Witness for the amended C3 theorem at the concrete input "REPEAT". -/
theorem interpret_repeat_w :
    interpret chatEmpty (some (geocodePlan ("x".toList))) ("REPEAT".toList)
        = .ok (geocodePlan ("x".toList), some (geocodePlan ("x".toList)))
      ∧ interpret chatEmpty Option.none ("REPEAT".toList)
        = llmFallback chatEmpty Option.none (trimStr ("REPEAT".toList)) :=
  interpret_repeat chatEmpty ("REPEAT".toList) (geocodePlan ("x".toList)) (by decide) rfl

/-- Counterexample to C3 as stated: "again" with no retained plan does not
return an InterpretationFailure — with an oracle that answers a JSON plan,
interpret returns that plan (no error key) and even retains it. -/
theorem interpret_repeat_cx :
    interpret chatTool Option.none ("again".toList)
        = .ok (.dict [("tool".toList, .str ("dummy".toList))],
               some (.dict [("tool".toList, .str ("dummy".toList))]))
      ∧ pyGet (.dict [("tool".toList, .str ("dummy".toList))]) ("error".toList)
        = Option.none := by
  constructor
  · rfl
  · rfl

/-- C4: dispatching a plan whose tool is absent from the registry raises
AttributeError (tools.get yields None and None.run is accessed) instead of
returning an "unknown tool" error value. -/
theorem dispatch_unknown_tool_raises :
    dispatch (fun _ _ => 0) osmStub
        (.dict [("tool".toList, .str ("teleport".toList)),
                ("action".toList, .str ("geocode".toList)),
                ("params".toList, .dict [])])
      = .error (.attributeError ("NoneType object has no attribute run".toList)) := rfl

/-- C7 (amended): on a two-element pair or a lat/lon mapping, resolution
coerces both values with float() in order and returns the coordinate; a
failing coercion makes resolution itself raise (the error propagates out
of _resolve), and the exception is only converted to an error mapping one
level up, by the catch-all of the tool adapter. -/
theorem resolve_coercion (a b : PyObj) :
    (resolveLoc (.list [a, b])
        = (do let la ← pyFloat a; let lo ← pyFloat b; Except.ok (some (la, lo))))
      ∧ (resolveLoc (.dict [("lat".toList, a), ("lon".toList, b)])
        = (do let la ← pyFloat a; let lo ← pyFloat b; Except.ok (some (la, lo))))
      ∧ (∀ (dist : ℚ × ℚ → ℚ × ℚ → ℚ) (e : PyErr), pyFloat a = .error e →
          dummyRun dist (.str ("route".toList)) [("origin".toList, .list [a, b])]
            = errDict (errStr e)) := by
  refine ⟨rfl, rfl, ?_⟩
  intro dist e he
  have hres : resolveLoc (.list [a, b]) = .error e := by
    simp only [resolveLoc, he]
    rfl
  have step1 : dummyRun dist (.str ("route".toList)) [("origin".toList, .list [a, b])]
      = catchPy (dummyRoute dist (.list [a, b]) PyObj.none) := rfl
  have step2 : dummyRoute dist (.list [a, b]) PyObj.none = .error e := by
    unfold dummyRoute
    rw [hres]
    rfl
  rw [step1, step2]
  rfl

/-- Witness for the amended C7 theorem at the pair ("abc", "1.0"): both
equations hold and the adapter converts the raised ValueError. -/
theorem resolve_coercion_w :
    (resolveLoc (.list [.str ("abc".toList), .str ("1.0".toList)])
        = (do let la ← pyFloat (.str ("abc".toList))
              let lo ← pyFloat (.str ("1.0".toList))
              Except.ok (some (la, lo))))
      ∧ (resolveLoc (.dict [("lat".toList, .str ("abc".toList)),
                            ("lon".toList, .str ("1.0".toList))])
        = (do let la ← pyFloat (.str ("abc".toList))
              let lo ← pyFloat (.str ("1.0".toList))
              Except.ok (some (la, lo))))
      ∧ dummyRun (fun _ _ => 0) (.str ("route".toList))
          [("origin".toList, .list [.str ("abc".toList), .str ("1.0".toList)])]
        = errDict (("could not convert string to float: ").toList ++ ("abc".toList)) := by
  have h := resolve_coercion (.str ("abc".toList)) (.str ("1.0".toList))
  exact ⟨h.1, h.2.1, h.2.2 (fun _ _ => 0)
    (.valueError (("could not convert string to float: ").toList ++ ("abc".toList))) rfl⟩

/-- Counterexample to C7 as stated: resolving a pair whose first value
cannot be coerced raises a ValueError out of _resolve rather than
returning none. -/
theorem resolve_coercion_cx :
    resolveLoc (.list [.str ("abc".toList), .str ("1.0".toList)])
        = .error (.valueError (("could not convert string to float: ").toList
            ++ ("abc".toList)))
      ∧ resolveLoc (.list [.str ("abc".toList), .str ("1.0".toList)])
        ≠ .ok Option.none := by
  refine ⟨rfl, fun hcontra => ?_⟩
  rw [show resolveLoc (.list [.str ("abc".toList), .str ("1.0".toList)])
      = .error (.valueError (("could not convert string to float: ").toList
          ++ ("abc".toList))) from rfl] at hcontra
  exact absurd hcontra (by simp)

/-- C10: the dummy poi action never hands back the empty sequence the
matcher can produce: an empty search result is replaced by the message
mapping, a raised exception becomes an error mapping, and a nonempty
result is returned as a nonempty list. -/
theorem dummy_poi_no_empty (dist : ℚ × ℚ → ℚ × ℚ → ℚ) (kwargs : List (Str × PyObj)) :
    dummyRun dist (.str ("poi".toList)) kwargs ≠ .list []
      ∧ (searchPOI dist (kwGet kwargs ("query".toList)) (kwGet kwargs ("near".toList))
          = .ok [] →
        dummyRun dist (.str ("poi".toList)) kwargs = noPlacesMsg) := by
  have base : dummyRun dist (.str ("poi".toList)) kwargs
      = catchPy (do
          let rs ← searchPOI dist (kwGet kwargs ("query".toList))
            (kwGet kwargs ("near".toList))
          Except.ok (if rs.isEmpty then noPlacesMsg else .list rs)) := rfl
  cases hs : searchPOI dist (kwGet kwargs ("query".toList)) (kwGet kwargs ("near".toList)) with
  | error e =>
    have step : dummyRun dist (.str ("poi".toList)) kwargs = errDict (errStr e) := by
      rw [base, hs]
      rfl
    constructor
    · rw [step]
      simp [errDict]
    · intro hcontra
      exact absurd hcontra (by simp)
  | ok rs =>
    have step : dummyRun dist (.str ("poi".toList)) kwargs
        = (if rs.isEmpty then noPlacesMsg else .list rs) := by
      rw [base, hs]
      rfl
    cases rs with
    | nil =>
      constructor
      · rw [step]
        simp [noPlacesMsg]
      · intro _
        rw [step]
        rfl
    | cons r rs2 =>
      constructor
      · rw [step]
        simp
      · intro hcontra
        exact absurd hcontra (by simp)

/-- Witness for C10: a query matching nothing yields the message mapping
and not an empty list. -/
theorem dummy_poi_no_empty_w :
    dummyRun (fun _ _ => 0) (.str ("poi".toList))
        [("query".toList, .str ("zzz".toList))] ≠ .list []
      ∧ dummyRun (fun _ _ => 0) (.str ("poi".toList))
        [("query".toList, .str ("zzz".toList))] = noPlacesMsg := by
  have h := dummy_poi_no_empty (fun _ _ => 0) [("query".toList, .str ("zzz".toList))]
  exact ⟨h.1, h.2 rfl⟩

/-- Counterexample to C5 as stated: for the query "parkss" the claimed
predicate (single trailing s stripped) rejects Central Park, yet the
search — which strips every trailing s on both sides — returns it. -/
theorem poiMatch_cx :
    poiMatchSpec ("parkss".toList) centralPark = false
      ∧ centralPark ∈ places
      ∧ searchPOI (fun _ _ => 0) (.str ("parkss".toList)) PyObj.none
        = .ok [poiDict centralPark Option.none] := by
  refine ⟨rfl, ?_, rfl⟩
  simp [places, centralPark]

theorem poiLoop_none_eq (dist : ℚ × ℚ → ℚ × ℚ → ℚ) (q : Str) :
    ∀ l : List Place,
      poiLoop dist Option.none q l
        = (l.filter (pMatch q)).map (fun p => poiDict p Option.none) := by
  intro l
  induction l with
  | nil => rfl
  | cons p ps ih =>
    by_cases hm : pMatch q p = true
    · simp only [poiLoop, hm, if_true, List.filter_cons_of_pos hm, List.map_cons, ih]
    · have hm' : pMatch q p = false := by simpa using hm
      simp [poiLoop, hm', List.filter_cons, ih]

/-- C5 (amended): with no near argument, searchPOI on a nonempty string
query returns, in catalog order, exactly the entries accepted by the
matching predicate of the loop: the lowercased stripped query is a
substring of the lowercased name, or the query and some synonym of the
entry category coincide after every trailing "s" (not just one) has been
stripped from each; all other entries are absent. -/
theorem searchPOI_no_center (dist : ℚ × ℚ → ℚ × ℚ → ℚ) (s : Str) (hs : s ≠ []) :
    searchPOI dist (.str s) PyObj.none
      = .ok ((places.filter (pMatch (procQ s))).map (fun p => poiDict p Option.none)) := by
  have ht : pyTruthy (.str s) = true := by
    simp [pyTruthy, hs]
  unfold searchPOI
  rw [if_neg (by simp [ht])]
  show (do
    let center ← centerOf PyObj.none
    let rs := poiLoop dist center (trimStr (lowerStr s)) places
    match center with
    | some _ => Except.ok (List.insertionSort keyLE rs)
    | Option.none => Except.ok rs) = _
  rw [show centerOf PyObj.none = Except.ok Option.none from rfl]
  show Except.ok (poiLoop dist Option.none (trimStr (lowerStr s)) places) = _
  rw [poiLoop_none_eq]
  rfl

/-- Witness for the amended C5 theorem at the query "parks". -/
theorem searchPOI_no_center_w :
    searchPOI (fun _ _ => 0) (.str ("parks".toList)) PyObj.none
      = .ok ((places.filter (pMatch (procQ ("parks".toList)))).map
          (fun p => poiDict p Option.none)) :=
  searchPOI_no_center (fun _ _ => 0) ("parks".toList) (by simp)

theorem pyGet_poiDict_some (p : Place) (d : ℚ) :
    pyGet (poiDict p (some d)) ("distance_km".toList) = some (.num d) := rfl

theorem pyGet_poiDict_none (p : Place) :
    pyGet (poiDict p Option.none) ("distance_km".toList) = Option.none := rfl

theorem poiLoop_some_mem (dist : ℚ × ℚ → ℚ × ℚ → ℚ) (c : ℚ × ℚ) (q : Str) :
    ∀ (l : List Place) (r : PyObj), r ∈ poiLoop dist (some c) q l →
      ∃ p, p ∈ l ∧ pMatch q p = true ∧ dist c (p.lat, p.lon) ≤ 5
        ∧ r = poiDict p (some (round3 (dist c (p.lat, p.lon)))) := by
  intro l
  induction l with
  | nil =>
    intro r h
    exact absurd h (List.not_mem_nil r)
  | cons p ps ih =>
    intro r h
    simp only [poiLoop] at h
    split at h
    · rename_i hmatch
      split at h
      · rename_i hfar
        obtain ⟨p', hp', hm', hd', hr'⟩ := ih r h
        exact ⟨p', List.mem_cons_of_mem p hp', hm', hd', hr'⟩
      · rename_i hnear
        rcases List.mem_cons.1 h with h1 | h1
        · exact ⟨p, List.mem_cons_self p ps, hmatch, le_of_not_lt hnear, h1⟩
        · obtain ⟨p', hp', hm', hd', hr'⟩ := ih r h1
          exact ⟨p', List.mem_cons_of_mem p hp', hm', hd', hr'⟩
    · obtain ⟨p', hp', hm', hd', hr'⟩ := ih r h
      exact ⟨p', List.mem_cons_of_mem p hp', hm', hd', hr'⟩

theorem sortedKeyB_of_pairwise :
    ∀ rs : List PyObj, List.Pairwise keyLE rs → sortedKeyB rs = true := by
  intro rs
  induction rs with
  | nil => intro _; rfl
  | cons a t ih =>
    intro h
    rcases List.pairwise_cons.1 h with ⟨hrel, htail⟩
    cases t with
    | nil => rfl
    | cons b t2 =>
      rw [sortedKeyB, ih htail]
      simp [keyLE] at hrel ⊢
      exact hrel.1

/-- C6: when the near argument resolves to a center, every record of
searchPOI stems from a catalog entry within the 5 km radius (for the
supplied distance function), carries the rounded distance in its
distance_km field, and the sequence is sorted by non-decreasing
distance_km key; when the near argument is falsy or resolves to nothing,
the matching records are returned in catalog order and none carries a
distance_km field. -/
theorem searchPOI_near (dist : ℚ × ℚ → ℚ × ℚ → ℚ) (s : Str) (near : PyObj)
    (rs : List PyObj) (copt : Option (ℚ × ℚ))
    (h : searchPOI dist (.str s) near = .ok rs)
    (hc : centerOf near = .ok copt) :
    match copt with
    | some c => poiSoundB dist c s rs = true ∧ hasDistAllB rs = true
        ∧ sortedKeyB rs = true
    | Option.none =>
        rs = (if s.isEmpty then []
              else (places.filter (pMatch (procQ s))).map (fun p => poiDict p Option.none))
          ∧ noDistAllB rs = true := by
  by_cases hs : s.isEmpty = true
  · have hrs : rs = [] := by
      unfold searchPOI at h
      rw [if_pos (by simp [pyTruthy, hs])] at h
      injection h with h'
      exact h'.symm
    subst hrs
    cases copt with
    | some c => exact ⟨rfl, rfl, rfl⟩
    | none => exact ⟨by rw [if_pos hs], rfl⟩
  · have ht : pyTruthy (.str s) = true := by simp [pyTruthy]; simpa using hs
    unfold searchPOI at h
    rw [if_neg (by simp [ht])] at h
    have h2 : (centerOf near).bind (fun center =>
        match center with
        | some _ => Except.ok (List.insertionSort keyLE
            (poiLoop dist center (trimStr (lowerStr s)) places))
        | Option.none => Except.ok
            (poiLoop dist center (trimStr (lowerStr s)) places)) = Except.ok rs := h
    rw [hc] at h2
    cases copt with
    | some c =>
      have h4 : (Except.ok (List.insertionSort keyLE
          (poiLoop dist (some c) (trimStr (lowerStr s)) places))
            : Except PyErr (List PyObj)) = Except.ok rs := h2
      have hrs : rs = List.insertionSort keyLE
          (poiLoop dist (some c) (trimStr (lowerStr s)) places) := by
        injection h4 with h5
        exact h5.symm
      subst hrs
      refine ⟨?_, ?_, ?_⟩
      · rw [poiSoundB, List.all_eq_true]
        intro r hr
        have hr2 : r ∈ poiLoop dist (some c) (trimStr (lowerStr s)) places :=
          (List.perm_insertionSort keyLE _).subset hr
        obtain ⟨p, hp, hm, hd, hreq⟩ := poiLoop_some_mem dist c _ places r hr2
        rw [List.any_eq_true]
        refine ⟨p, hp, ?_⟩
        rw [Bool.and_eq_true, Bool.and_eq_true]
        exact ⟨⟨hm, decide_eq_true hd⟩, decide_eq_true hreq⟩
      · rw [hasDistAllB, List.all_eq_true]
        intro r hr
        have hr2 : r ∈ poiLoop dist (some c) (trimStr (lowerStr s)) places :=
          (List.perm_insertionSort keyLE _).subset hr
        obtain ⟨p, _, _, _, hreq⟩ := poiLoop_some_mem dist c _ places r hr2
        rw [hreq, pyGet_poiDict_some]
        rfl
      · exact sortedKeyB_of_pairwise _ (List.sorted_insertionSort keyLE _)
    | none =>
      have h4 : (Except.ok (poiLoop dist Option.none (trimStr (lowerStr s)) places)
            : Except PyErr (List PyObj)) = Except.ok rs := h2
      have hrs : rs = poiLoop dist Option.none (trimStr (lowerStr s)) places := by
        injection h4 with h5
        exact h5.symm
      subst hrs
      refine ⟨?_, ?_⟩
      · rw [if_neg hs, poiLoop_none_eq]
        rfl
      · rw [noDistAllB, List.all_eq_true]
        intro r hr
        rw [poiLoop_none_eq] at hr
        rcases List.mem_map.1 hr with ⟨p, _, hpr⟩
        rw [← hpr, pyGet_poiDict_none]
        rfl

/-- Witness for C6 with a resolving near argument (a coordinate pair) and
the query "park": the returned records are sound for the supplied
distance function, all carry the distance field, and the sequence is
sorted by the distance key; the hypotheses are discharged definitionally
at this concrete input. -/
theorem searchPOI_near_w :
    poiSoundB (fun _ _ => 1) ((40.78 : ℚ), (-73.97 : ℚ)) ("park".toList)
        (List.insertionSort keyLE
          (poiLoop (fun _ _ => 1) (some ((40.78 : ℚ), (-73.97 : ℚ)))
            (trimStr (lowerStr ("park".toList))) places)) = true
      ∧ hasDistAllB
          (List.insertionSort keyLE
            (poiLoop (fun _ _ => 1) (some ((40.78 : ℚ), (-73.97 : ℚ)))
              (trimStr (lowerStr ("park".toList))) places)) = true
      ∧ sortedKeyB
          (List.insertionSort keyLE
            (poiLoop (fun _ _ => 1) (some ((40.78 : ℚ), (-73.97 : ℚ)))
              (trimStr (lowerStr ("park".toList))) places)) = true :=
  searchPOI_near (fun _ _ => 1) ("park".toList) (.list [.num 40.78, .num (-73.97)])
    (List.insertionSort keyLE
      (poiLoop (fun _ _ => 1) (some ((40.78 : ℚ), (-73.97 : ℚ)))
        (trimStr (lowerStr ("park".toList))) places))
    (some ((40.78 : ℚ), (-73.97 : ℚ))) rfl rfl

theorem radiansR_neg (x : ℝ) : radiansR (-x) = -radiansR x := by
  unfold radiansR
  ring

theorem sin_sq_radians_neg (x : ℝ) :
    Real.sin (radiansR (-x) / 2) ^ 2 = Real.sin (radiansR x / 2) ^ 2 := by
  rw [radiansR_neg, neg_div, Real.sin_neg, neg_sq]

theorem havTerm_symm (a b : ℝ × ℝ) : havTerm a b = havTerm b a := by
  unfold havTerm
  rw [show a.1 - b.1 = -(b.1 - a.1) by ring, show a.2 - b.2 = -(b.2 - a.2) by ring,
    sin_sq_radians_neg, sin_sq_radians_neg, mul_comm (Real.cos (radiansR b.1))]

theorem radiansR_zero : radiansR 0 = 0 := by
  unfold radiansR
  ring

theorem havTerm_self (a : ℝ × ℝ) : havTerm a a = 0 := by
  unfold havTerm
  rw [sub_self, sub_self, radiansR_zero, zero_div, Real.sin_zero]
  ring

theorem greatCircleKm_self (a : ℝ × ℝ) : greatCircleKm a a = 0 := by
  unfold greatCircleKm
  rw [havTerm_self, Real.sqrt_zero, sub_zero, Real.sqrt_one]
  rw [show atan2R 0 1 = Real.arctan (0 / 1) from if_pos one_pos]
  rw [zero_div, Real.arctan_zero]
  ring

/-- C8: the great-circle distance of the local backend is symmetric and
vanishes on equal endpoints, both before and after the 3-decimal
presentation rounding. -/
theorem greatCircle_symm_self (a b : ℝ × ℝ) :
    greatCircleKm a b = greatCircleKm b a
      ∧ greatCircleKm a a = 0
      ∧ round3R (greatCircleKm a b) = round3R (greatCircleKm b a)
      ∧ round3R (greatCircleKm a a) = 0 := by
  have hsymm : greatCircleKm a b = greatCircleKm b a := by
    unfold greatCircleKm
    rw [havTerm_symm]
  refine ⟨hsymm, greatCircleKm_self a, by rw [hsymm], ?_⟩
  rw [greatCircleKm_self a]
  unfold round3R
  rw [zero_mul]
  simp
